import Mathlib

/-!
Verification of the AWS cost anomaly detection Lambda
(`src/lambda_function.py`).

Numeric values (costs, medians, z-scores, thresholds) are embedded as
rationals; Python's `round(x, 2)` is embedded as exact round-half-even to two
decimal places. The CloudWatch query, S3 put and SNS publish are embedded as
oracle parameters (the query result, and success flags for the two writes),
and the handler returns the HTTP-style response together with the list of
externally visible effects it attempted.
-/

namespace CostAnomaly

attribute [local semireducible] Rat.add Rat.mul Rat.sub Rat.inv

/-- Round-half-even of a rational to an integer: the semantics of Python's
built-in `round` on exact values (banker's rounding). -/
def roundHalfEven (q : ℚ) : ℤ :=
  let f := ⌊q⌋
  let r := q - (f : ℚ)
  if r < 1/2 then f
  else if 1/2 < r then f + 1
  else if f % 2 = 0 then f else f + 1

/-- Python's `round(x, 2)`: round-half-even at the second decimal place. -/
def round2 (q : ℚ) : ℚ := (roundHalfEven (100 * q) : ℚ) / 100

/-- One element of the `cost_data` list built by `fetch_billing_metrics`
(lines 101–106 of `lambda_function.py`); the constant `note` field is
dropped. -/
structure DailyCostPoint where
  date : String
  total_cost : ℚ
  cumulative_cost : ℚ
deriving DecidableEq, Repr, Inhabited

/-- One CloudWatch datapoint after the sort by timestamp (line 90):
`date` is the formatted `Timestamp`, `maximum` the `Maximum` statistic. -/
structure RawPoint where
  date : String
  maximum : ℚ
deriving DecidableEq, Repr, Inhabited

/-- The normalization loop of `fetch_billing_metrics` (lines 93–106):
cumulative readings become per-day deltas, clamped at 0 and rounded to two
decimals; `prev` is the previous datapoint's `Maximum` (`none` at index 0,
where the cumulative value itself is used). -/
def normalizeFrom : Option ℚ → List RawPoint → List DailyCostPoint
  | _, [] => []
  | prev, p :: ps =>
    let daily : ℚ :=
      match prev with
      | none => p.maximum
      | some v => p.maximum - v
    { date := p.date
      total_cost := round2 (max daily 0)
      cumulative_cost := round2 p.maximum } :: normalizeFrom (some p.maximum) ps

/-- The pure part of `fetch_billing_metrics`: datapoints (already sorted by
timestamp) mapped to the `cost_data` list. -/
def fetch_billing_metrics (datapoints : List RawPoint) : List DailyCostPoint :=
  normalizeFrom none datapoints

/-- The Python median idiom used twice in `detect_anomalies_mad`
(lines 125–127 and 131–132): `sorted(l)[n//2]` for odd `n`, otherwise the
average of the two middle values of the sorted list.  (For `n = 0` Python
would raise; this total version returns 0, and the detector only evaluates it
behind the `len >= 7` guard.) -/
def pyMedian (l : List ℚ) : ℚ :=
  let s := List.insertionSort (· ≤ ·) l
  let n := l.length
  if n % 2 = 1 then s.getD (n / 2) 0
  else (s.getD (n / 2 - 1) 0 + s.getD (n / 2) 0) / 2

/-- Line 122: `costs = [day['total_cost'] for day in cost_data]`. -/
def costsOf (cost_data : List DailyCostPoint) : List ℚ :=
  cost_data.map DailyCostPoint.total_cost

/-- Lines 130–132: the median of the absolute deviations from the median. -/
def madRaw (costs : List ℚ) : ℚ :=
  pyMedian (costs.map (fun c => |c - pyMedian costs|))

/-- Lines 134–135: the MAD with the floor 0.01 substituted when it is
exactly 0. -/
def madAdj (costs : List ℚ) : ℚ :=
  let m := madRaw costs
  if m = 0 then 1/100 else m

/-- Line 141: `modified_z_score = 0.6745 * (cost - median) / mad`. -/
def zscore (median mad cost : ℚ) : ℚ := 6745/10000 * (cost - median) / mad

/-- The anomaly dictionary appended at lines 147–157 of
`detect_anomalies_mad`; the constant `note` field is dropped. -/
structure Anomaly where
  date : String
  cost : ℚ
  median : ℚ
  z_score : ℚ
  anomaly_type : String
  severity : String
  deviation_amount : ℚ
  deviation_percent : ℚ
deriving DecidableEq, Repr, Inhabited

/-- Builds the anomaly record for one day (lines 140–157). -/
def mkAnomaly (threshold median mad : ℚ) (d : DailyCostPoint) : Anomaly :=
  let z := zscore median mad d.total_cost
  { date := d.date
    cost := d.total_cost
    median := round2 median
    z_score := round2 z
    anomaly_type := if 0 < z then "spike" else "drop"
    severity := if threshold * (3/2) < |z| then "critical" else "warning"
    deviation_amount := round2 (d.total_cost - median)
    deviation_percent :=
      if 0 < median then round2 ((d.total_cost - median) / median * 100) else 0 }

/-- The unsorted anomaly list built by `detect_anomalies_mad` before the final
sort: the short-series guard (lines 119–120) followed by the accumulation loop
(lines 138–157). -/
def anomalyRows (cost_data : List DailyCostPoint) (threshold : ℚ) : List Anomaly :=
  if cost_data.length < 7 then []
  else
    let median := pyMedian (costsOf cost_data)
    let mad := madAdj (costsOf cost_data)
    (cost_data.filter
        (fun d => decide (threshold < |zscore median mad d.total_cost|))).map
      (mkAnomaly threshold median mad)

/-- The sort key relation of line 159: `a` may precede `b` when
`abs(a['z_score'])` is at least `abs(b['z_score'])` (descending). -/
def zAbsGE (a b : Anomaly) : Prop := |b.z_score| ≤ |a.z_score|

instance : DecidableRel zAbsGE :=
  fun a b => inferInstanceAs (Decidable (|b.z_score| ≤ |a.z_score|))

instance : IsTotal Anomaly zAbsGE :=
  ⟨fun a b =>
    show |b.z_score| ≤ |a.z_score| ∨ |a.z_score| ≤ |b.z_score| from
      le_total _ _⟩

instance : IsTrans Anomaly zAbsGE :=
  ⟨fun _ _ _ hab hbc => le_trans hbc hab⟩

/-- `detect_anomalies_mad` (lines 117–160): the accumulated rows, stably
sorted by descending absolute z-score (Python's `list.sort` is stable, as is
`List.insertionSort`). -/
def detect_anomalies_mad (cost_data : List DailyCostPoint) (threshold : ℚ) :
    List Anomaly :=
  List.insertionSort zAbsGE (anomalyRows cost_data threshold)

/-- The environment-supplied configuration (lines 19–22); the lookback window
only parameterizes the CloudWatch query, which is an oracle here. -/
structure Env where
  snsTopicArn : Option String
  s3Bucket : Option String
  anomalyThreshold : ℚ
deriving DecidableEq, Repr

/-- The externally visible calls the handler can attempt. The SNS message
string formatting is abstracted to the data it draws from: `anomalies[0]` and
`len(anomalies)` (lines 168–188). -/
inductive Effect
  | s3Put (bucket : String) (cost_data : List DailyCostPoint)
      (anomalies : List Anomaly)
  | snsPublish (topicArn : String) (topAnomaly : Anomaly) (totalAnomalies : ℕ)
deriving DecidableEq, Repr

/-- The handler's HTTP-style result (lines 229–237): status code, message and
the optional `data` payload, abstracted to the two counters
`(total_days_analyzed, anomalies_detected)` of lines 49–54. -/
structure Response where
  statusCode : ℕ
  message : String
  data : Option (ℕ × ℕ)
deriving DecidableEq, Repr

def create_response (statusCode : ℕ) (message : String) (data : Option (ℕ × ℕ)) :
    Response :=
  { statusCode := statusCode, message := message, data := data }

/-- `save_to_s3` (lines 201–226): a no-op when the bucket is unset; otherwise
the put is attempted and a failing put (`s3Ok = false`) is caught inside
(lines 225–226), so the attempt is recorded either way and nothing
propagates. -/
def save_to_s3 (env : Env) (s3Ok : Bool) (cost_data : List DailyCostPoint)
    (anomalies : List Anomaly) : List Effect :=
  match env.s3Bucket with
  | none => []
  | some b =>
    match (if s3Ok then Except.ok () else Except.error "put_object failed" :
        Except String Unit) with
    | Except.ok _ => [Effect.s3Put b cost_data anomalies]
    | Except.error _ => [Effect.s3Put b cost_data anomalies]

/-- `send_alert` (lines 163–198): returns with no publish when
`SNS_TOPIC_ARN` is unset (lines 165–166); otherwise publishes a message built
from `anomalies[0]` and `len(anomalies)`, and a failing publish
(`snsOk = false`) is caught inside (lines 197–198). -/
def send_alert (env : Env) (snsOk : Bool) (anomalies : List Anomaly) :
    List Effect :=
  match env.snsTopicArn with
  | none => []
  | some arn =>
    match (if snsOk then Except.ok () else Except.error "publish failed" :
        Except String Unit) with
    | Except.ok _ =>
        [Effect.snsPublish arn (anomalies.headD default) anomalies.length]
    | Except.error _ =>
        [Effect.snsPublish arn (anomalies.headD default) anomalies.length]

/-- `lambda_handler` (lines 25–61). `fetchResult` is the outcome of the
CloudWatch query inside `fetch_billing_metrics`: an exception there is
re-raised (line 114) and caught only by the outer handler (lines 59–61);
`s3Ok` and `snsOk` are the outcomes of the S3 put and SNS publish. -/
def lambda_handler (env : Env) (fetchResult : Except String (List RawPoint))
    (s3Ok snsOk : Bool) : Response × List Effect :=
  match fetchResult with
  | Except.error e => (create_response 500 ("Error: " ++ e) none, [])
  | Except.ok datapoints =>
    let cost_data := fetch_billing_metrics datapoints
    if cost_data.isEmpty then
      (create_response 200
        "No billing data available. Enable detailed billing in AWS Console."
        none, [])
    else
      let anomalies := detect_anomalies_mad cost_data env.anomalyThreshold
      let saveEffs := save_to_s3 env s3Ok cost_data anomalies
      let alertEffs :=
        if anomalies.isEmpty then [] else send_alert env snsOk anomalies
      (create_response 200 "Success" (some (cost_data.length, anomalies.length)),
        saveEffs ++ alertEffs)

/-! Concrete data used to witness the theorems below. `series8` is the
worked example of the spec (§8): seven days at cost 10 followed by one day at
cost 100, with the cumulative readings that produce it; `rawSeries8` is the
raw series it is normalized from. -/

def point8 : DailyCostPoint := ⟨"d8", 100, 170⟩

def series8 : List DailyCostPoint :=
  [⟨"d1", 10, 10⟩, ⟨"d2", 10, 20⟩, ⟨"d3", 10, 30⟩, ⟨"d4", 10, 40⟩,
   ⟨"d5", 10, 50⟩, ⟨"d6", 10, 60⟩, ⟨"d7", 10, 70⟩, point8]

/-- The single anomaly the detector reports on `series8` at threshold 3:
z-score 0.6745 * 90 / 0.01 = 6070.5. -/
def anomaly8 : Anomaly :=
  ⟨"d8", 100, 10, 12141/2, "spike", "critical", 90, 900⟩

def rawSeries8 : List RawPoint :=
  [⟨"d1", 10⟩, ⟨"d2", 20⟩, ⟨"d3", 30⟩, ⟨"d4", 40⟩,
   ⟨"d5", 50⟩, ⟨"d6", 60⟩, ⟨"d7", 70⟩, ⟨"d8", 170⟩]

/-- A raw series whose cumulative value decreases between the two points. -/
def rawDecr : List RawPoint := [⟨"r1", 5⟩, ⟨"r2", 3⟩]

/-- The second point `rawDecr` normalizes to: the delta 3 - 5 is clamped. -/
def ptDrop : DailyCostPoint := ⟨"r2", 0, 3⟩

def shortSeries : List DailyCostPoint := [⟨"d1", 10, 10⟩, ⟨"d2", 500, 510⟩]

def envTopic : Env := ⟨some "topic-arn", some "bucket", 3⟩

def env0 : Env := ⟨none, none, 3⟩

/-! Helper lemmas. -/

lemma roundHalfEven_nonneg {q : ℚ} (h : 0 ≤ q) : 0 ≤ roundHalfEven q := by
  have hf : 0 ≤ ⌊q⌋ := Int.floor_nonneg.mpr h
  unfold roundHalfEven
  dsimp only
  split_ifs <;> omega

lemma round2_nonneg {q : ℚ} (h : 0 ≤ q) : 0 ≤ round2 q := by
  have h1 : 0 ≤ roundHalfEven (100 * q) :=
    roundHalfEven_nonneg (by positivity)
  have h2 : (0:ℚ) ≤ (roundHalfEven (100 * q) : ℚ) := by exact_mod_cast h1
  unfold round2
  positivity

lemma normalizeFrom_length (prev : Option ℚ) (raw : List RawPoint) :
    (normalizeFrom prev raw).length = raw.length := by
  induction raw generalizing prev with
  | nil => rfl
  | cons p ps ih => simp [normalizeFrom, ih]

lemma normalizeFrom_total_cost_nonneg (prev : Option ℚ) (raw : List RawPoint)
    (pt : DailyCostPoint) (h : pt ∈ normalizeFrom prev raw) :
    0 ≤ pt.total_cost := by
  induction raw generalizing prev with
  | nil => simp [normalizeFrom] at h
  | cons p ps ih =>
    simp only [normalizeFrom, List.mem_cons] at h
    rcases h with h | h
    · rw [h]
      exact round2_nonneg (le_max_right _ _)
    · exact ih _ h

lemma normalizeFrom_getD_succ (raw : List RawPoint) (prev : Option ℚ) (i : ℕ)
    (h : i + 1 < raw.length) :
    (normalizeFrom prev raw).getD (i + 1) default =
      { date := (raw.getD (i + 1) default).date
        total_cost :=
          round2 (max ((raw.getD (i + 1) default).maximum -
            (raw.getD i default).maximum) 0)
        cumulative_cost := round2 (raw.getD (i + 1) default).maximum } := by
  induction raw generalizing prev i with
  | nil => simp at h
  | cons p ps ih =>
    cases i with
    | zero =>
      cases ps with
      | nil => simp at h
      | cons q qs =>
        simp [normalizeFrom, List.getD_cons_succ, List.getD_cons_zero]
    | succ j =>
      have h2 : j + 1 < ps.length := by
        simpa [Nat.succ_lt_succ_iff] using h
      have hih := ih (some p.maximum) j h2
      simpa [normalizeFrom, List.getD_cons_succ] using hih

/-- C2 -- the detector's short-series guard, as a reusable lemma. -/
lemma detect_short_aux (cost_data : List DailyCostPoint) (threshold : ℚ)
    (h : cost_data.length < 7) :
    detect_anomalies_mad cost_data threshold = [] := by
  simp [detect_anomalies_mad, anomalyRows, if_pos h]

/-! The claim theorems on the normalizer. -/

/-- C5: every point the normalizer outputs has a non-negative `total_cost`,
including when a cumulative value decreases between consecutive points (the
per-day delta is clamped to 0 before rounding). -/
theorem fetch_billing_metrics_total_cost_nonneg (raw : List RawPoint)
    (pt : DailyCostPoint) (h : pt ∈ fetch_billing_metrics raw) :
    0 ≤ pt.total_cost :=
  normalizeFrom_total_cost_nonneg none raw pt h

/-- Witness for C5: on `rawDecr`, whose cumulative value drops from 5 to 3,
the second output point `ptDrop` has clamped `total_cost` 0. -/
theorem fetch_billing_metrics_total_cost_nonneg_witness :
    0 ≤ ptDrop.total_cost :=
  fetch_billing_metrics_total_cost_nonneg rawDecr ptDrop (by decide)

/-- C6: for a non-empty raw series with non-negative cumulative values, the
first output point has `total_cost` equal to its `cumulative_cost`, and every
later point's `total_cost` is the clamped difference of the two adjacent
cumulative values, rounded to two decimals. -/
theorem fetch_billing_metrics_delta_spec (raw : List RawPoint)
    (h0 : raw ≠ []) (hnn : ∀ p ∈ raw, 0 ≤ p.maximum) :
    (fetch_billing_metrics raw).length = raw.length ∧
    ((fetch_billing_metrics raw).getD 0 default).total_cost =
      ((fetch_billing_metrics raw).getD 0 default).cumulative_cost ∧
    ∀ i, 0 < i → i < raw.length →
      ((fetch_billing_metrics raw).getD i default).total_cost =
        round2 (max ((raw.getD i default).maximum -
          (raw.getD (i - 1) default).maximum) 0) := by
  refine ⟨normalizeFrom_length none raw, ?_, ?_⟩
  · cases raw with
    | nil => exact absurd rfl h0
    | cons p ps =>
      have hp : 0 ≤ p.maximum := hnn p (List.mem_cons_self p ps)
      simp [fetch_billing_metrics, normalizeFrom, List.getD_cons_zero,
        max_eq_left hp]
  · intro i hi hlt
    obtain ⟨j, rfl⟩ : ∃ j, i = j + 1 :=
      ⟨i - 1, (Nat.succ_pred_eq_of_pos hi).symm⟩
    have hspec := normalizeFrom_getD_succ raw none j hlt
    rw [fetch_billing_metrics, hspec]
    simp

/-- Witness for C6: on `rawDecr` (non-empty, cumulative values 5 then 3), the
second output point's `total_cost` is the clamped, rounded delta. -/
theorem fetch_billing_metrics_delta_spec_witness :
    ((fetch_billing_metrics rawDecr).getD 1 default).total_cost =
      round2 (max ((rawDecr.getD 1 default).maximum -
        (rawDecr.getD 0 default).maximum) 0) :=
  (fetch_billing_metrics_delta_spec rawDecr (by decide) (by decide)).2.2 1
    (by decide) (by decide)

/-- C2: a series shorter than 7 points yields an empty anomaly list, whatever
the values and the threshold. -/
theorem detect_anomalies_mad_short_series (cost_data : List DailyCostPoint)
    (threshold : ℚ) (h : cost_data.length < 7) :
    detect_anomalies_mad cost_data threshold = [] :=
  detect_short_aux cost_data threshold h

/-- Witness for C2: a 2-point series with an extreme jump still yields no
anomalies. -/
theorem detect_anomalies_mad_short_series_witness :
    detect_anomalies_mad shortSeries 3 = [] :=
  detect_anomalies_mad_short_series shortSeries 3 (by decide)

/-! Detector lemmas. -/

lemma anomalyRows_eq (cost_data : List DailyCostPoint) (threshold : ℚ)
    (h : ¬ cost_data.length < 7) :
    anomalyRows cost_data threshold =
      (cost_data.filter
          (fun d => decide (threshold <
            |zscore (pyMedian (costsOf cost_data)) (madAdj (costsOf cost_data))
              d.total_cost|))).map
        (mkAnomaly threshold (pyMedian (costsOf cost_data))
          (madAdj (costsOf cost_data))) := by
  rw [anomalyRows, if_neg h]

lemma mem_detect_iff (cost_data : List DailyCostPoint) (threshold : ℚ)
    (a : Anomaly) :
    a ∈ detect_anomalies_mad cost_data threshold ↔
      a ∈ anomalyRows cost_data threshold := by
  rw [detect_anomalies_mad]
  exact List.mem_insertionSort zAbsGE

lemma getD_rat_nonneg (l : List ℚ) (h : ∀ x ∈ l, 0 ≤ x) (i : ℕ) :
    0 ≤ l.getD i 0 := by
  induction l generalizing i with
  | nil => simp
  | cons x xs ih =>
    cases i with
    | zero => simpa using h x (List.mem_cons_self x xs)
    | succ j =>
      simpa [List.getD_cons_succ] using
        ih (fun y hy => h y (List.mem_cons_of_mem x hy)) j

lemma pyMedian_nonneg (l : List ℚ) (h : ∀ x ∈ l, 0 ≤ x) : 0 ≤ pyMedian l := by
  have hs : ∀ x ∈ List.insertionSort (· ≤ ·) l, 0 ≤ x := fun x hx =>
    h x ((List.mem_insertionSort _).mp hx)
  rw [pyMedian]
  split_ifs
  · exact getD_rat_nonneg _ hs _
  · have h1 := getD_rat_nonneg _ hs (l.length / 2 - 1)
    have h2 := getD_rat_nonneg _ hs (l.length / 2)
    have := add_nonneg h1 h2
    linarith

/-! The claim theorems on the detector. -/

/-- C1: for a series of at least 7 points, the detector's output contains a
point if and only if the absolute modified z-score
0.6745 * (cost - median) / MAD exceeds the threshold, where the median is the
Python median of the `total_cost` values and the MAD is the median of the
absolute deviations, floored at 0.01 when exactly 0. -/
theorem detect_anomalies_mad_mem_iff (cost_data : List DailyCostPoint)
    (threshold : ℚ) (hlen : 7 ≤ cost_data.length) (d : DailyCostPoint)
    (hd : d ∈ cost_data) :
    (∃ a ∈ detect_anomalies_mad cost_data threshold,
        a.date = d.date ∧ a.cost = d.total_cost) ↔
      threshold <
        |6745/10000 * (d.total_cost - pyMedian (costsOf cost_data)) /
          madAdj (costsOf cost_data)| := by
  have hg : ¬ cost_data.length < 7 := not_lt.mpr hlen
  constructor
  · rintro ⟨a, ha, _, hcost⟩
    rw [mem_detect_iff, anomalyRows_eq _ _ hg, List.mem_map] at ha
    obtain ⟨d2, hd2, rfl⟩ := ha
    rw [List.mem_filter] at hd2
    have hp := of_decide_eq_true hd2.2
    have hc : d2.total_cost = d.total_cost := by simpa [mkAnomaly] using hcost
    rw [hc] at hp
    simpa [zscore] using hp
  · intro h
    refine ⟨mkAnomaly threshold (pyMedian (costsOf cost_data))
      (madAdj (costsOf cost_data)) d, ?_, rfl, rfl⟩
    rw [mem_detect_iff, anomalyRows_eq _ _ hg, List.mem_map]
    exact ⟨d, List.mem_filter.mpr
      ⟨hd, decide_eq_true (by simpa [zscore] using h)⟩, rfl⟩

/-- Witness for C1: on the spec's worked example at threshold 3, the day with
cost 100 is reported, and its z-score condition holds. -/
theorem detect_anomalies_mad_mem_iff_witness :
    (∃ a ∈ detect_anomalies_mad series8 3,
        a.date = point8.date ∧ a.cost = point8.total_cost) ↔
      3 < |6745/10000 * (point8.total_cost - pyMedian (costsOf series8)) /
        madAdj (costsOf series8)| :=
  detect_anomalies_mad_mem_iff series8 3 (by decide) point8 (by decide)

/-- C4: every emitted anomaly comes from a point of the series; its
`anomaly_type` is "spike" when the modified z-score is positive and "drop"
otherwise, and its `severity` is "critical" exactly when the absolute z-score
strictly exceeds 1.5 times the threshold ("warning" at the boundary). -/
theorem detect_anomalies_mad_type_severity (cost_data : List DailyCostPoint)
    (threshold : ℚ) :
    ∀ a ∈ detect_anomalies_mad cost_data threshold,
      ∃ d ∈ cost_data,
        a.date = d.date ∧ a.cost = d.total_cost ∧
        a.anomaly_type =
          (if 0 < zscore (pyMedian (costsOf cost_data))
              (madAdj (costsOf cost_data)) d.total_cost
           then "spike" else "drop") ∧
        a.severity =
          (if 3/2 * threshold <
              |zscore (pyMedian (costsOf cost_data))
                (madAdj (costsOf cost_data)) d.total_cost|
           then "critical" else "warning") := by
  intro a ha
  rw [mem_detect_iff] at ha
  by_cases hg : cost_data.length < 7
  · rw [anomalyRows, if_pos hg] at ha
    simp at ha
  · rw [anomalyRows_eq _ _ hg, List.mem_map] at ha
    obtain ⟨d, hd, rfl⟩ := ha
    refine ⟨d, (List.mem_filter.mp hd).1, rfl, rfl, rfl, ?_⟩
    show (if threshold * (3/2) < _ then _ else _) = _
    rw [mul_comm threshold (3/2 : ℚ)]

/-- Witness for C4: the anomaly reported on the spec's worked example is a
critical spike. -/
theorem detect_anomalies_mad_type_severity_witness :
    ∃ d ∈ series8,
      anomaly8.date = d.date ∧ anomaly8.cost = d.total_cost ∧
      anomaly8.anomaly_type =
        (if 0 < zscore (pyMedian (costsOf series8)) (madAdj (costsOf series8))
            d.total_cost
         then "spike" else "drop") ∧
      anomaly8.severity =
        (if 3/2 * 3 <
            |zscore (pyMedian (costsOf series8)) (madAdj (costsOf series8))
              d.total_cost|
         then "critical" else "warning") :=
  detect_anomalies_mad_type_severity series8 3 anomaly8 (by decide)

/-- C7: every emitted anomaly's `deviation_percent` is the percentage
deviation from the median, rounded to two decimals, when the median is
nonzero, and 0 when the median is 0; the guard never divides by a zero
median. The hypothesis is the data-model invariant that `total_cost` is
non-negative (which the normalizer guarantees). -/
theorem detect_anomalies_mad_deviation_percent (cost_data : List DailyCostPoint)
    (threshold : ℚ) (hnn : ∀ d ∈ cost_data, 0 ≤ d.total_cost) :
    ∀ a ∈ detect_anomalies_mad cost_data threshold,
      ∃ d ∈ cost_data,
        a.date = d.date ∧ a.cost = d.total_cost ∧
        a.deviation_percent =
          (if pyMedian (costsOf cost_data) = 0 then 0
           else round2 ((d.total_cost - pyMedian (costsOf cost_data)) /
             pyMedian (costsOf cost_data) * 100)) := by
  intro a ha
  have hm : 0 ≤ pyMedian (costsOf cost_data) := by
    refine pyMedian_nonneg _ (fun x hx => ?_)
    obtain ⟨d, hd, rfl⟩ := List.mem_map.mp hx
    exact hnn d hd
  rw [mem_detect_iff] at ha
  by_cases hg : cost_data.length < 7
  · rw [anomalyRows, if_pos hg] at ha
    simp at ha
  · rw [anomalyRows_eq _ _ hg, List.mem_map] at ha
    obtain ⟨d, hd, rfl⟩ := ha
    refine ⟨d, (List.mem_filter.mp hd).1, rfl, rfl, ?_⟩
    by_cases h0 : pyMedian (costsOf cost_data) = 0
    · rw [if_pos h0]
      show (if 0 < pyMedian (costsOf cost_data) then _ else _) = _
      rw [if_neg (by rw [h0]; exact lt_irrefl 0)]
    · rw [if_neg h0]
      show (if 0 < pyMedian (costsOf cost_data) then _ else _) = _
      rw [if_pos (lt_of_le_of_ne hm (Ne.symm h0))]

/-- Witness for C7: on the spec's worked example (all costs non-negative,
median 10), the reported anomaly's deviation percent is the rounded
percentage formula. -/
theorem detect_anomalies_mad_deviation_percent_witness :
    ∃ d ∈ series8,
      anomaly8.date = d.date ∧ anomaly8.cost = d.total_cost ∧
      anomaly8.deviation_percent =
        (if pyMedian (costsOf series8) = 0 then 0
         else round2 ((d.total_cost - pyMedian (costsOf series8)) /
           pyMedian (costsOf series8) * 100)) :=
  detect_anomalies_mad_deviation_percent series8 3 (by decide) anomaly8
    (by decide)

/-! Stability of the final sort. -/

lemma filter_zeq_orderedInsert (c : ℚ) (x : Anomaly) (s : List Anomaly) :
    (s.orderedInsert zAbsGE x).filter (fun a => decide (|a.z_score| = c)) =
      if |x.z_score| = c then
        x :: s.filter (fun a => decide (|a.z_score| = c))
      else s.filter (fun a => decide (|a.z_score| = c)) := by
  induction s with
  | nil =>
    by_cases hx : |x.z_score| = c <;>
      simp [List.orderedInsert, List.filter_cons, hx]
  | cons b bs ih =>
    rw [List.orderedInsert]
    by_cases hxb : zAbsGE x b
    · rw [if_pos hxb]
      by_cases hx : |x.z_score| = c <;> simp [List.filter_cons, hx]
    · rw [if_neg hxb]
      have hlt : |x.z_score| < |b.z_score| := not_le.mp hxb
      rw [List.filter_cons, List.filter_cons, ih]
      by_cases hx : |x.z_score| = c
      · have hb : ¬ (|b.z_score| = c) := by
          rw [← hx]
          exact ne_of_gt hlt
        simp [hx, hb]
      · by_cases hb : |b.z_score| = c <;> simp [hx, hb]

lemma filter_zeq_insertionSort (c : ℚ) (l : List Anomaly) :
    (List.insertionSort zAbsGE l).filter (fun a => decide (|a.z_score| = c)) =
      l.filter (fun a => decide (|a.z_score| = c)) := by
  induction l with
  | nil => rfl
  | cons x xs ih =>
    rw [List.insertionSort, filter_zeq_orderedInsert, ih, List.filter_cons]
    by_cases hx : |x.z_score| = c <;> simp [hx]

/-- C3: the returned anomaly list is pairwise descending in absolute z-score,
and for every key value the anomalies carrying it appear in the same relative
order as in the unsorted accumulation (which lists them in input-series
order): the sort of line 159 behaves as a stable descending sort. -/
theorem detect_anomalies_mad_sorted_stable (cost_data : List DailyCostPoint)
    (threshold : ℚ) :
    List.Pairwise (fun a b : Anomaly => |b.z_score| ≤ |a.z_score|)
      (detect_anomalies_mad cost_data threshold) ∧
    ∀ c : ℚ,
      (detect_anomalies_mad cost_data threshold).filter
          (fun a => decide (|a.z_score| = c)) =
        (anomalyRows cost_data threshold).filter
          (fun a => decide (|a.z_score| = c)) := by
  constructor
  · have h := List.sorted_insertionSort zAbsGE (anomalyRows cost_data threshold)
    exact h.imp (fun hab => hab)
  · intro c
    exact filter_zeq_insertionSort c _

/-! Handler lemmas. -/

lemma save_to_s3_no_publish (env : Env) (s3Ok : Bool)
    (cost_data : List DailyCostPoint) (anomalies : List Anomaly)
    (arn : String) (a : Anomaly) (n : ℕ) :
    Effect.snsPublish arn a n ∉ save_to_s3 env s3Ok cost_data anomalies := by
  unfold save_to_s3
  cases hB : env.s3Bucket with
  | none => simp
  | some b => cases s3Ok <;> simp

lemma send_alert_none (env : Env) (snsOk : Bool) (anomalies : List Anomaly)
    (h : env.snsTopicArn = none) :
    send_alert env snsOk anomalies = [] := by
  unfold send_alert
  rw [h]

lemma send_alert_some (env : Env) (snsOk : Bool) (anomalies : List Anomaly)
    (arn : String) (h : env.snsTopicArn = some arn) :
    send_alert env snsOk anomalies =
      [Effect.snsPublish arn (anomalies.headD default) anomalies.length] := by
  unfold send_alert
  rw [h]
  cases snsOk <;> rfl

lemma handler_ok_empty (env : Env) (dp : List RawPoint) (s3Ok snsOk : Bool)
    (h : fetch_billing_metrics dp = []) :
    lambda_handler env (Except.ok dp) s3Ok snsOk =
      (create_response 200
        "No billing data available. Enable detailed billing in AWS Console."
        none, []) := by
  simp [lambda_handler, h]

lemma handler_ok_response (env : Env) (dp : List RawPoint) (s3Ok snsOk : Bool)
    (h : ¬ (fetch_billing_metrics dp).isEmpty) :
    (lambda_handler env (Except.ok dp) s3Ok snsOk).1 =
      create_response 200 "Success"
        (some ((fetch_billing_metrics dp).length,
          (detect_anomalies_mad (fetch_billing_metrics dp)
            env.anomalyThreshold).length)) := by
  simp [lambda_handler, h]

lemma handler_ok_effects (env : Env) (dp : List RawPoint) (s3Ok snsOk : Bool)
    (h : ¬ (fetch_billing_metrics dp).isEmpty) :
    (lambda_handler env (Except.ok dp) s3Ok snsOk).2 =
      save_to_s3 env s3Ok (fetch_billing_metrics dp)
          (detect_anomalies_mad (fetch_billing_metrics dp)
            env.anomalyThreshold) ++
        (if (detect_anomalies_mad (fetch_billing_metrics dp)
              env.anomalyThreshold).isEmpty
         then []
         else send_alert env snsOk
           (detect_anomalies_mad (fetch_billing_metrics dp)
             env.anomalyThreshold)) := by
  simp [lambda_handler, h]

/-! The claim theorems on the handler. -/

/-- C8: the handler answers 500 carrying the error message exactly when the
metric fetch raises; failures of the storage write or the notification
dispatch (the `s3Ok`/`snsOk` oracles) never change the handler's response,
and a successful fetch always yields a 200 response. -/
theorem lambda_handler_error_tiers (env : Env)
    (fetchResult : Except String (List RawPoint)) (s3Ok snsOk : Bool) :
    ((lambda_handler env fetchResult s3Ok snsOk).1.statusCode = 500 ↔
        ∃ e, fetchResult = Except.error e) ∧
    (∀ e, fetchResult = Except.error e →
        (lambda_handler env fetchResult s3Ok snsOk).1.message = "Error: " ++ e) ∧
    ((lambda_handler env fetchResult s3Ok snsOk).1 =
        (lambda_handler env fetchResult true true).1) ∧
    (∀ dp, fetchResult = Except.ok dp →
        (lambda_handler env fetchResult s3Ok snsOk).1.statusCode = 200) := by
  cases fetchResult with
  | error e =>
    refine ⟨⟨fun _ => ⟨e, rfl⟩, fun _ => rfl⟩, ?_, rfl, ?_⟩
    · intro e2 he
      have : e = e2 := by injection he
      subst this
      rfl
    · intro dp h
      simp at h
  | ok dp =>
    by_cases hE : (fetch_billing_metrics dp).isEmpty
    · have hnil : fetch_billing_metrics dp = [] := by
        simpa [List.isEmpty_iff] using hE
      have h1 := handler_ok_empty env dp s3Ok snsOk hnil
      have h2 := handler_ok_empty env dp true true hnil
      refine ⟨?_, ?_, ?_, ?_⟩
      · rw [h1]
        simp [create_response]
      · intro e2 he
        simp at he
      · rw [h1, h2]
      · intro dp2 _
        rw [h1]
        rfl
    · have h1 := handler_ok_response env dp s3Ok snsOk hE
      have h2 := handler_ok_response env dp true true hE
      refine ⟨?_, ?_, ?_, ?_⟩
      · rw [h1]
        simp [create_response]
      · intro e2 he
        simp at he
      · rw [h1, h2]
      · intro dp2 _
        rw [h1]
        rfl

/-- Witness for C8: when the fetch raises with message "boom", the response
message is "Error: boom". -/
theorem lambda_handler_error_tiers_witness :
    (lambda_handler env0 (Except.error "boom") false false).1.message =
      "Error: " ++ "boom" :=
  (lambda_handler_error_tiers env0 (Except.error "boom") false false).2.1
    "boom" rfl

/-- C9: on a successful fetch, a publish effect is attempted exactly when the
anomaly list is non-empty and a topic is configured; any publish carries only
the first (highest-ranked) anomaly of the sorted list together with the total
count; and with no topic configured the handler still answers 200. -/
theorem lambda_handler_alert_dispatch (env : Env) (dp : List RawPoint)
    (s3Ok snsOk : Bool) :
    ((∃ arn a n, Effect.snsPublish arn a n ∈
        (lambda_handler env (Except.ok dp) s3Ok snsOk).2) ↔
      detect_anomalies_mad (fetch_billing_metrics dp) env.anomalyThreshold ≠ [] ∧
        env.snsTopicArn ≠ none) ∧
    (∀ arn a n, Effect.snsPublish arn a n ∈
        (lambda_handler env (Except.ok dp) s3Ok snsOk).2 →
      env.snsTopicArn = some arn ∧
      a = (detect_anomalies_mad (fetch_billing_metrics dp)
        env.anomalyThreshold).headD default ∧
      n = (detect_anomalies_mad (fetch_billing_metrics dp)
        env.anomalyThreshold).length) ∧
    (env.snsTopicArn = none →
      (lambda_handler env (Except.ok dp) s3Ok snsOk).1.statusCode = 200) := by
  by_cases hE : (fetch_billing_metrics dp).isEmpty
  · have hnil : fetch_billing_metrics dp = [] := by
      simpa [List.isEmpty_iff] using hE
    have hans : detect_anomalies_mad (fetch_billing_metrics dp)
        env.anomalyThreshold = [] := by
      rw [hnil]
      exact detect_short_aux _ _ (by simp)
    have heffs := handler_ok_empty env dp s3Ok snsOk hnil
    refine ⟨?_, ?_, ?_⟩
    · rw [heffs]
      simp [hans]
    · intro arn a n hmem
      rw [heffs] at hmem
      simp at hmem
    · intro _
      rw [heffs]
      rfl
  · have heffs := handler_ok_effects env dp s3Ok snsOk hE
    have hresp := handler_ok_response env dp s3Ok snsOk hE
    by_cases hA : (detect_anomalies_mad (fetch_billing_metrics dp)
        env.anomalyThreshold).isEmpty
    · have hansnil : detect_anomalies_mad (fetch_billing_metrics dp)
          env.anomalyThreshold = [] := by
        simpa [List.isEmpty_iff] using hA
      rw [hA, if_pos rfl, List.append_nil] at heffs
      refine ⟨?_, ?_, ?_⟩
      · rw [heffs]
        constructor
        · rintro ⟨arn, a, n, hmem⟩
          exact absurd hmem (save_to_s3_no_publish _ _ _ _ _ _ _)
        · rintro ⟨hne, -⟩
          exact absurd hansnil hne
      · intro arn a n hmem
        rw [heffs] at hmem
        exact absurd hmem (save_to_s3_no_publish _ _ _ _ _ _ _)
      · intro _
        rw [hresp]
        rfl
    · have hansne : detect_anomalies_mad (fetch_billing_metrics dp)
          env.anomalyThreshold ≠ [] := by
        simpa [List.isEmpty_iff] using hA
      rw [if_neg hA] at heffs
      cases hT : env.snsTopicArn with
      | none =>
        rw [send_alert_none env snsOk _ hT, List.append_nil] at heffs
        refine ⟨?_, ?_, ?_⟩
        · rw [heffs]
          constructor
          · rintro ⟨arn, a, n, hmem⟩
            exact absurd hmem (save_to_s3_no_publish _ _ _ _ _ _ _)
          · rintro ⟨-, hsome⟩
            exact absurd rfl hsome
        · intro arn a n hmem
          rw [heffs] at hmem
          exact absurd hmem (save_to_s3_no_publish _ _ _ _ _ _ _)
        · intro _
          rw [hresp]
          rfl
      | some arn0 =>
        rw [send_alert_some env snsOk _ arn0 hT] at heffs
        refine ⟨?_, ?_, ?_⟩
        · rw [heffs]
          refine iff_of_true ⟨arn0, _, _, List.mem_append_right _
            (List.mem_singleton_self _)⟩ ⟨hansne, by simp⟩
        · intro arn a n hmem
          rw [heffs] at hmem
          rcases List.mem_append.mp hmem with hmem | hmem
          · exact absurd hmem (save_to_s3_no_publish _ _ _ _ _ _ _)
          · rw [List.mem_singleton] at hmem
            injection hmem with h1 h2 h3
            subst h1
            subst h2
            subst h3
            exact ⟨rfl, rfl, rfl⟩
        · intro hnone
          simp at hnone

/-- Witness for C9: with a configured topic and the spec's worked example,
the attempted publish carries the single critical spike and the count 1. -/
theorem lambda_handler_alert_dispatch_witness :
    envTopic.snsTopicArn = some "topic-arn" ∧
    anomaly8 = (detect_anomalies_mad (fetch_billing_metrics rawSeries8)
      envTopic.anomalyThreshold).headD default ∧
    1 = (detect_anomalies_mad (fetch_billing_metrics rawSeries8)
      envTopic.anomalyThreshold).length :=
  (lambda_handler_alert_dispatch envTopic rawSeries8 true true).2.1
    "topic-arn" anomaly8 1 (by decide)

/-- C10: when the fetched series is empty, the handler answers 200 with the
"No billing data available" message and attempts no effect at all: no report
is written and no alert is sent. -/
theorem lambda_handler_no_data (env : Env) (dp : List RawPoint)
    (s3Ok snsOk : Bool) (h : fetch_billing_metrics dp = []) :
    lambda_handler env (Except.ok dp) s3Ok snsOk =
      (create_response 200
        "No billing data available. Enable detailed billing in AWS Console."
        none, []) :=
  handler_ok_empty env dp s3Ok snsOk h

/-- Witness for C10: an empty raw series produces the no-data response and an
empty effect list. -/
theorem lambda_handler_no_data_witness :
    lambda_handler env0 (Except.ok []) true true =
      (create_response 200
        "No billing data available. Enable detailed billing in AWS Console."
        none, []) :=
  lambda_handler_no_data env0 [] true true rfl

end CostAnomaly
